import Mathlib

/-!
Verification of the fragment admission layer of jormungandr: the fragment
model, the mempool store with its bounded status log and persistent log,
the batch ingestion protocol with fail-fast / continue-on-error modes, the
status reconciler, the REST logic layer (post_fragments,
get_fragment_statuses) and the simple-counter metrics backend.

The REST logic layer is embedded from src/jormungandr/src/rest/v1/logic.rs
and the metrics backend from
src/jormungandr/src/metrics/backends/simple_counter.rs.  The mempool store,
persistent log and batch protocol themselves are not shipped under src/
(only their tests and callers are), so those definitions are modelled from
the specification, as marked on each.
-/

/-- Raw fragment bytes (the canonical byte encoding of a fragment). -/
abbrev Bytes := List Nat

/-- A fragment identifier: a fixed-size content hash of the fragment's
canonical bytes.  The hash is modelled as the canonical bytes themselves,
an idealised collision-free content hash. -/
abbrev FragmentId := List Nat

/-- A fragment: an opaque self-describing byte payload. -/
structure Fragment where
  bytes : Bytes
deriving DecidableEq

/-- Compute the FragmentId of a fragment from its canonical bytes
(pure and deterministic; identity under the idealised hash). -/
def Fragment.fid (f : Fragment) : FragmentId := f.bytes

/-- Modelled from the spec: structural validation without ledger context
(size bounds, decodable envelope).  A fragment is well formed when its
payload is non-empty, the minimal decodable envelope. -/
def is_well_formed (f : Fragment) : Bool := decide (f.bytes ≠ [])

/-- The status of a tracked fragment: Pending, or one of the two terminal
states Rejected and InABlock. -/
inductive FragmentStatus where
  | Pending : FragmentStatus
  | Rejected (reason : String) : FragmentStatus
  | InABlock (block : Bytes) (valid_until : Nat) : FragmentStatus
deriving DecidableEq

/-- Rejected and InABlock are terminal; Pending is not. -/
def FragmentStatus.isTerminal : FragmentStatus → Bool
  | .Pending => false
  | .Rejected _ => true
  | .InABlock _ _ => true

/-- Mempool configuration: cap on concurrently Pending fragments, cap on
status-log history, and whether durable persistent logging is enabled. -/
structure MempoolConfig where
  pool_max_entries : Nat
  log_max_entries : Nat
  persistent_log_enabled : Bool
deriving DecidableEq

/-- Modelled from the spec: the Mempool Store state.  The pool holds the
currently Pending fragments; the status log is the bounded FIFO history of
tracked statuses in insertion order; the persistent log is the append-only
durable record of admitted fragments' raw bytes. -/
structure MempoolState where
  pool : List Fragment
  statusLog : List (FragmentId × FragmentStatus)
  persistentLog : List Bytes
deriving DecidableEq

/-- The empty mempool state at node startup. -/
def MempoolState.empty : MempoolState :=
  { pool := [], statusLog := [], persistentLog := [] }

/-- Look up the current status of a FragmentId in a status log. -/
def log_lookup (log : List (FragmentId × FragmentStatus)) (fid : FragmentId) :
    Option FragmentStatus :=
  (log.find? (fun e => e.1 == fid)).map (fun e => e.2)

/-- Modelled from the spec: FIFO eviction of the status log, oldest first,
once the cap is exceeded, regardless of status. -/
def evict_oldest (cap : Nat) (log : List (FragmentId × FragmentStatus)) :
    List (FragmentId × FragmentStatus) :=
  if log.length ≤ cap then log else log.drop (log.length - cap)

/-- The outcome of admitting one fragment to the mempool store. -/
inductive AdmitOutcome where
  | Admitted : AdmitOutcome
  | Duplicate : AdmitOutcome
  | PoolFull : AdmitOutcome
deriving DecidableEq

/-- Modelled from the spec: the Mempool Store admission step.  A fragment
whose FragmentId already has a tracked status is a Duplicate (idempotent
resubmission, checked first so duplicates are never reported as capacity
failures); otherwise if the count of currently Pending fragments already
equals pool_max_entries the fragment is rejected as PoolFull with no side
effect; otherwise the persistent log append happens first (when enabled)
and the fragment is inserted as Pending, the status log evicting its
oldest entries beyond log_max_entries. -/
def admitOne (cfg : MempoolConfig) (st : MempoolState) (f : Fragment) :
    AdmitOutcome × MempoolState :=
  if (log_lookup st.statusLog f.fid).isSome then
    (AdmitOutcome.Duplicate, st)
  else if st.pool.length = cfg.pool_max_entries then
    (AdmitOutcome.PoolFull, st)
  else
    (AdmitOutcome.Admitted,
      { pool := st.pool ++ [f]
        statusLog :=
          evict_oldest cfg.log_max_entries
            (st.statusLog ++ [(f.fid, FragmentStatus.Pending)])
        persistentLog :=
          if cfg.persistent_log_enabled then st.persistentLog ++ [f.bytes]
          else st.persistentLog })

/-- Modelled from the spec: the Status Reconciler transition.  A no-op if
the id is unknown or already terminal; otherwise the status-log entry is
replaced with the new status and the fragment leaves the pool. -/
def transition (st : MempoolState) (fid : FragmentId) (new_status : FragmentStatus) :
    MempoolState :=
  match log_lookup st.statusLog fid with
  | none => st
  | some old =>
    if old.isTerminal then st
    else
      { pool := st.pool.filter (fun f => !(f.fid == fid))
        statusLog :=
          st.statusLog.map (fun e => if e.1 == fid then (e.1, new_status) else e)
        persistentLog := st.persistentLog }

/-- Modelled from the spec: the reconciler marks a fragment included in a
block; ignored if the id is unknown or terminal. -/
def mark_in_block (st : MempoolState) (fid : FragmentId) (block : Bytes)
    (valid_until : Nat) : MempoolState :=
  transition st fid (FragmentStatus.InABlock block valid_until)

/-- Modelled from the spec: the reconciler marks a fragment rejected by the
ledger; ignored if the id is unknown or terminal. -/
def mark_rejected (st : MempoolState) (fid : FragmentId) (reason : String) :
    MempoolState :=
  transition st fid (FragmentStatus.Rejected reason)

/-- Per-fragment outcome recorded in a batch processing summary. -/
inductive FragmentOutcome where
  | Admitted : FragmentOutcome
  | Duplicate : FragmentOutcome
  | PoolFull : FragmentOutcome
  | NotSubmitted : FragmentOutcome
deriving DecidableEq

/-- The summary outcome corresponding to a store admission outcome. -/
def outcome_of_admit : AdmitOutcome → FragmentOutcome
  | .Admitted => .Admitted
  | .Duplicate => .Duplicate
  | .PoolFull => .PoolFull

/-- Modelled from the spec: the Batch Ingestion Protocol.  Fragments are
processed strictly in list order; a structural-validation failure records
NotSubmitted with no store entry; a well-formed fragment goes through
admitOne.  After any failing fragment, fail_fast stops processing and
marks every remaining fragment NotSubmitted, while continue-on-error
evaluates each remaining fragment independently. -/
def submit_batch (cfg : MempoolConfig) :
    MempoolState → List Fragment → Bool →
      List (FragmentId × FragmentOutcome) × MempoolState
  | st, [], _ => ([], st)
  | st, f :: rest, fail_fast =>
    if is_well_formed f then
      match admitOne cfg st f with
      | (AdmitOutcome.Admitted, st1) =>
        let r := submit_batch cfg st1 rest fail_fast
        ((f.fid, FragmentOutcome.Admitted) :: r.1, r.2)
      | (other, st1) =>
        if fail_fast then
          ((f.fid, outcome_of_admit other) ::
            rest.map (fun g => (g.fid, FragmentOutcome.NotSubmitted)), st1)
        else
          let r := submit_batch cfg st1 rest fail_fast
          ((f.fid, outcome_of_admit other) :: r.1, r.2)
    else
      if fail_fast then
        ((f.fid, FragmentOutcome.NotSubmitted) ::
          rest.map (fun g => (g.fid, FragmentOutcome.NotSubmitted)), st)
      else
        let r := submit_batch cfg st rest fail_fast
        ((f.fid, FragmentOutcome.NotSubmitted) :: r.1, r.2)

/-- The batch processing summary: for each input fragment, its id and
outcome, in input order. -/
structure FragmentsProcessingSummary where
  outcomes : List (FragmentId × FragmentOutcome)
deriving DecidableEq

/-- Modelled from the spec: batch-level failure is the derived boolean over
per-fragment outcomes — the summary is an error whenever at least one
fragment's outcome is not Admitted. -/
def FragmentsProcessingSummary.is_error (s : FragmentsProcessingSummary) : Bool :=
  s.outcomes.any (fun e => !(e.2 == FragmentOutcome.Admitted))

/-- Result of the REST post_fragments endpoint: either the summary as
success, or a request-level error carrying the same summary. -/
inductive PostFragmentsResult where
  | ok (summary : FragmentsProcessingSummary) : PostFragmentsResult
  | fragmentsError (summary : FragmentsProcessingSummary) : PostFragmentsResult
deriving DecidableEq

/-- Embedded from src/jormungandr/src/rest/v1/logic.rs, post_fragments: the
batch is handed to the transaction task, and the reply summary is returned
as a request-level error exactly when the summary is_error, otherwise as
success. -/
def post_fragments (cfg : MempoolConfig) (st : MempoolState)
    (fragments : List Fragment) (fail_fast : Bool) :
    PostFragmentsResult × MempoolState :=
  let r := submit_batch cfg st fragments fail_fast
  let reply : FragmentsProcessingSummary := ⟨r.1⟩
  if reply.is_error then (PostFragmentsResult.fragmentsError reply, r.2)
  else (PostFragmentsResult.ok reply, r.2)

/-- Node-level mempool configuration as loaded at startup: the two caps and
an optional persistent log directory. -/
structure NodeMempoolConfig where
  pool_max_entries : Nat
  log_max_entries : Nat
  persistent_log_dir : Option String
deriving DecidableEq

/-- Outcome of the attempt to create/open the persistent log directory. -/
inductive DirOpen where
  | opened : DirOpen
  | openFailed (msg : String) : DirOpen
deriving DecidableEq

/-- Result of node startup for this core: a running mempool, or a fatal
startup error. -/
inductive StartupResult where
  | started (st : MempoolState) : StartupResult
  | fatalError (msg : String) : StartupResult
deriving DecidableEq

/-- Modelled from the spec: node startup of this core.  When a persistent
log directory is configured and cannot be created or opened, startup
aborts with a descriptive fatal error; otherwise the empty mempool state
is started. -/
def node_startup (cfg : NodeMempoolConfig) (dir_open : DirOpen) : StartupResult :=
  match cfg.persistent_log_dir with
  | none => StartupResult.started MempoolState.empty
  | some _ =>
    match dir_open with
    | DirOpen.opened => StartupResult.started MempoolState.empty
    | DirOpen.openFailed m =>
        StartupResult.fatalError ("failed to open persistent log file: " ++ m)

/-- Modelled from the spec: a node restart.  In-memory pool and status log
are rebuilt empty; the on-disk persistent log files survive. -/
def restart (st : MempoolState) : MempoolState :=
  { pool := [], statusLog := [], persistentLog := st.persistentLog }

/-- Modelled from the spec: replay concatenates all existing log files in
creation order, reconstructing the historical record of previously seen
fragments. -/
def replay (st : MempoolState) : List Bytes := st.persistentLog

/-- Admit a list of fragments one by one, as a sequence of individual
submissions, returning the final state. -/
def admit_seq (cfg : MempoolConfig) (st : MempoolState) (fs : List Fragment) :
    MempoolState :=
  fs.foldl (fun s f => (admitOne cfg s f).2) st

/-- The aggregate counters of the latest tip block, embedded from
BlockCounters in simple_counter.rs. -/
structure BlockCounters where
  block_tx_count : Nat
  block_input_sum : Nat
  block_fee_sum : Nat
  content_size : Nat
  date : String
  hash : String
  chain_length : String
  time : Nat
deriving DecidableEq

/-- One fragment of a block's contents as seen by set_tip_block: either a
transaction-bearing fragment with its total input and output values, or a
fragment without value movement (Initial, OldUtxoDeclaration,
UpdateProposal, UpdateVote). -/
inductive BlockFragment where
  | tx (input : Nat) (output : Nat) : BlockFragment
  | nonTx : BlockFragment
deriving DecidableEq

/-- A block as consumed by set_tip_block: its contents and header data. -/
structure Block where
  contents : List BlockFragment
  content_size : Nat
  date : String
  hash : String
  chain_length : String
deriving DecidableEq

/-- Embedded from simple_counter.rs, set_tip_block's aggregation loop: for
every transaction-bearing fragment the count is incremented, the total
input added to the input sum, and the fee (total input minus total output,
zero when the difference underflows) added to the fee sum; other fragments
are skipped.  Nat truncated subtraction matches the unwrap_or-zero fee. -/
def tip_block_counters (b : Block) (time : Nat) : BlockCounters :=
  let agg := b.contents.foldl
    (fun acc f =>
      match f with
      | BlockFragment.nonTx => acc
      | BlockFragment.tx input output =>
        (acc.1 + 1, acc.2.1 + input, acc.2.2 + (input - output)))
    ((0, 0, 0) : Nat × Nat × Nat)
  { block_tx_count := agg.1
    block_input_sum := agg.2.1
    block_fee_sum := agg.2.2
    content_size := b.content_size
    date := b.date
    hash := b.hash
    chain_length := b.chain_length
    time := time }

/-- The state of the SimpleCounter metrics backend, embedded from
simple_counter.rs: the atomic counters plus the swappable optional tip
block summary. -/
structure SimpleCounter where
  tx_recv_cnt : Nat
  block_recv_cnt : Nat
  slot_start_time : Nat
  peers_connected_cnt : Nat
  peers_quarantined_cnt : Nat
  peers_available_cnt : Nat
  tip_block : Option BlockCounters
deriving DecidableEq

/-- Embedded from simple_counter.rs, set_tip_block: the whole BlockCounters
summary computed from the block is stored as one unit, replacing the
previous tip block summary atomically. -/
def set_tip_block (s : SimpleCounter) (b : Block) (block_time : Nat) :
    SimpleCounter :=
  { s with tip_block := some (tip_block_counters b block_time) }

/-- The node statistics record, embedded from NodeStats as filled in by
get_stats (uptime omitted: wall-clock only). -/
structure NodeStats where
  block_recv_cnt : Nat
  last_block_content_size : Nat
  last_block_date : Option String
  last_block_fees : Nat
  last_block_hash : Option String
  last_block_height : Option String
  last_block_sum : Nat
  last_block_time : Option Nat
  last_block_tx : Nat
  last_received_block_time : Option Nat
  peer_available_cnt : Nat
  peer_connected_cnt : Nat
  peer_quarantined_cnt : Nat
  peer_total_cnt : Nat
  tx_recv_cnt : Nat
deriving DecidableEq

/-- Embedded from simple_counter.rs, get_stats: the tip block summary is
loaded once and every last_block_* field is derived from that single load,
falling back to the default (zero or none) when no tip block has been
observed yet. -/
def get_stats (s : SimpleCounter) : NodeStats :=
  let block_data := s.tip_block
  { block_recv_cnt := s.block_recv_cnt
    last_block_content_size := (block_data.map (fun bd => bd.content_size)).getD 0
    last_block_date := block_data.map (fun bd => bd.date)
    last_block_fees := (block_data.map (fun bd => bd.block_fee_sum)).getD 0
    last_block_hash := block_data.map (fun bd => bd.hash)
    last_block_height := block_data.map (fun bd => bd.chain_length)
    last_block_sum := (block_data.map (fun bd => bd.block_input_sum)).getD 0
    last_block_time := block_data.map (fun bd => bd.time)
    last_block_tx := (block_data.map (fun bd => bd.block_tx_count)).getD 0
    last_received_block_time := some s.slot_start_time
    peer_available_cnt := s.peers_available_cnt
    peer_connected_cnt := s.peers_connected_cnt
    peer_quarantined_cnt := s.peers_quarantined_cnt
    peer_total_cnt := s.peers_available_cnt + s.peers_quarantined_cnt
    tx_recv_cnt := s.tx_recv_cnt }

/-- The numeric value of one hexadecimal digit, or none. -/
def hex_digit_value (c : Char) : Option Nat :=
  if '0' ≤ c ∧ c ≤ '9' then some (c.toNat - '0'.toNat)
  else if 'a' ≤ c ∧ c ≤ 'f' then some (c.toNat - 'a'.toNat + 10)
  else if 'A' ≤ c ∧ c ≤ 'F' then some (c.toNat - 'A'.toNat + 10)
  else none

/-- Decode a hex character sequence into bytes; fails on an odd length or
any non-hex character, as hex decode does. -/
def hex_decode : List Char → Option (List Nat)
  | [] => some []
  | [_] => none
  | c1 :: c2 :: rest => do
    let hi ← hex_digit_value c1
    let lo ← hex_digit_value c2
    let bs ← hex_decode rest
    pure ((hi * 16 + lo) :: bs)

/-- FragmentId FromStr: hex-decode the string and require exactly the
32 bytes of the content hash. -/
def fragment_id_from_str (s : String) : Option FragmentId :=
  match hex_decode s.toList with
  | none => none
  | some bs => if bs.length = 32 then some bs else none

/-- Parse every id string, failing on the first unparsable one, as the
collected Result in get_fragment_statuses does. -/
def parse_ids : List String → Option (List FragmentId)
  | [] => some []
  | s :: rest => do
    let fid ← fragment_id_from_str s
    let fids ← parse_ids rest
    pure (fid :: fids)

/-- Modelled from the spec: the store-side status query; ids absent from
the status log are absent from the result mapping. -/
def statuses_lookup (store : List (FragmentId × FragmentStatus))
    (fids : List FragmentId) : List (FragmentId × FragmentStatus) :=
  fids.filterMap (fun fid => (log_lookup store fid).map (fun st => (fid, st)))

/-- Embedded from src/jormungandr/src/rest/v1/logic.rs,
get_fragment_statuses: all id strings are parsed first and any parse
failure errors the whole request before the store is queried; otherwise
the store is queried for the parsed ids. -/
def get_fragment_statuses (store : List (FragmentId × FragmentStatus))
    (ids : List String) : Except String (List (FragmentId × FragmentStatus)) :=
  match parse_ids ids with
  | none => Except.error "invalid fragment id"
  | some fids => Except.ok (statuses_lookup store fids)

/-- A status log keyed uniquely: each tracked FragmentId has exactly one
current status. -/
def unique_statuses (st : MempoolState) : Prop :=
  (st.statusLog.map Prod.fst).Nodup

/-- A status log tracks no status for an id exactly when no entry carries
that id. -/
lemma log_lookup_eq_none (log : List (FragmentId × FragmentStatus)) (fid : FragmentId) :
    log_lookup log fid = none ↔ ∀ e ∈ log, e.1 ≠ fid := by
  simp [log_lookup, List.find?_eq_none]

/-- C1: for every batch submitted through the REST layer, post_fragments
returns a request-level error carrying the FragmentsProcessingSummary if
and only if the summary's is_error holds, which holds if and only if at
least one input fragment's outcome is not Admitted; otherwise the summary
is returned as success.  In particular a batch with an admitted prefix
still surfaces as a failed request when any later outcome is not
Admitted. -/
theorem post_fragments_error_iff_summary_is_error (cfg : MempoolConfig)
    (st : MempoolState) (fragments : List Fragment) (fail_fast : Bool) :
    ((post_fragments cfg st fragments fail_fast).1 =
        PostFragmentsResult.fragmentsError
          ⟨(submit_batch cfg st fragments fail_fast).1⟩ ↔
      FragmentsProcessingSummary.is_error
          ⟨(submit_batch cfg st fragments fail_fast).1⟩ = true)
    ∧ ((post_fragments cfg st fragments fail_fast).1 =
        PostFragmentsResult.ok ⟨(submit_batch cfg st fragments fail_fast).1⟩ ↔
      FragmentsProcessingSummary.is_error
          ⟨(submit_batch cfg st fragments fail_fast).1⟩ = false)
    ∧ (FragmentsProcessingSummary.is_error
          ⟨(submit_batch cfg st fragments fail_fast).1⟩ = true ↔
      ∃ e ∈ (submit_batch cfg st fragments fail_fast).1,
        e.2 ≠ FragmentOutcome.Admitted) := by
  refine ⟨?_, ?_, ?_⟩
  · unfold post_fragments
    rcases h : FragmentsProcessingSummary.is_error
        ⟨(submit_batch cfg st fragments fail_fast).1⟩ with _ | _ <;>
      simp [h]
  · unfold post_fragments
    rcases h : FragmentsProcessingSummary.is_error
        ⟨(submit_batch cfg st fragments fail_fast).1⟩ with _ | _ <;>
      simp [h]
  · simp [FragmentsProcessingSummary.is_error, List.any_eq_true]

/-- C2: the batch [valid_a, invalid, valid_b] with fail_fast true, where
invalid fails structural validation: valid_a is recorded Admitted and
tracked Pending, invalid and valid_b are recorded NotSubmitted and are not
found by status queries (valid_b is never attempted), and valid_a stays in
the pool (no rollback). -/
theorem fail_fast_true_invalid_in_middle (cfg : MempoolConfig) (a x b : Fragment)
    (ha : is_well_formed a = true) (hx : is_well_formed x = false)
    (hba : b.fid ≠ a.fid)
    (hpool : 1 ≤ cfg.pool_max_entries) (hlog : 1 ≤ cfg.log_max_entries) :
    (submit_batch cfg MempoolState.empty [a, x, b] true).1 =
      [(a.fid, FragmentOutcome.Admitted), (x.fid, FragmentOutcome.NotSubmitted),
       (b.fid, FragmentOutcome.NotSubmitted)]
    ∧ log_lookup (submit_batch cfg MempoolState.empty [a, x, b] true).2.statusLog a.fid =
        some FragmentStatus.Pending
    ∧ log_lookup (submit_batch cfg MempoolState.empty [a, x, b] true).2.statusLog x.fid =
        none
    ∧ log_lookup (submit_batch cfg MempoolState.empty [a, x, b] true).2.statusLog b.fid =
        none
    ∧ (submit_batch cfg MempoolState.empty [a, x, b] true).2.pool = [a] := by
  have hxa : x.fid ≠ a.fid := by
    show x.bytes ≠ a.bytes
    intro h
    rw [is_well_formed, h] at hx
    rw [is_well_formed] at ha
    rw [ha] at hx
    simp at hx
  have h0 : ¬ ((0 : Nat) = cfg.pool_max_entries) := by omega
  simp [submit_batch, admitOne, log_lookup, evict_oldest, MempoolState.empty, ha, hx, h0,
    hba, hxa, hlog]
  exact ⟨Ne.symm hxa, Ne.symm hba⟩

/-- C2 witness: the theorem instantiated at one-byte fragments and caps of
ten. -/
theorem fail_fast_true_invalid_in_middle_witness :
    (submit_batch ⟨10, 10, true⟩ MempoolState.empty [⟨[1]⟩, ⟨[]⟩, ⟨[2]⟩] true).1 =
      [([1], FragmentOutcome.Admitted), ([], FragmentOutcome.NotSubmitted),
       ([2], FragmentOutcome.NotSubmitted)]
    ∧ log_lookup
        (submit_batch ⟨10, 10, true⟩ MempoolState.empty [⟨[1]⟩, ⟨[]⟩, ⟨[2]⟩] true).2.statusLog
        (Fragment.fid ⟨[1]⟩) = some FragmentStatus.Pending
    ∧ log_lookup
        (submit_batch ⟨10, 10, true⟩ MempoolState.empty [⟨[1]⟩, ⟨[]⟩, ⟨[2]⟩] true).2.statusLog
        (Fragment.fid ⟨[]⟩) = none
    ∧ log_lookup
        (submit_batch ⟨10, 10, true⟩ MempoolState.empty [⟨[1]⟩, ⟨[]⟩, ⟨[2]⟩] true).2.statusLog
        (Fragment.fid ⟨[2]⟩) = none
    ∧ (submit_batch ⟨10, 10, true⟩ MempoolState.empty [⟨[1]⟩, ⟨[]⟩, ⟨[2]⟩] true).2.pool =
        [⟨[1]⟩] :=
  fail_fast_true_invalid_in_middle ⟨10, 10, true⟩ ⟨[1]⟩ ⟨[]⟩ ⟨[2]⟩
    (by decide) (by decide) (by decide) (by decide) (by decide)

/-- C3: the batch [valid_a, invalid, valid_b] with fail_fast false, where
invalid fails structural validation: valid_a and valid_b are both recorded
Admitted and tracked Pending (valid_b is processed despite the earlier
failure), and only invalid is not found by status queries. -/
theorem fail_fast_false_invalid_in_middle (cfg : MempoolConfig) (a x b : Fragment)
    (ha : is_well_formed a = true) (hx : is_well_formed x = false)
    (hb : is_well_formed b = true) (hba : b.fid ≠ a.fid)
    (hpool : 2 ≤ cfg.pool_max_entries) (hlog : 2 ≤ cfg.log_max_entries) :
    (submit_batch cfg MempoolState.empty [a, x, b] false).1 =
      [(a.fid, FragmentOutcome.Admitted), (x.fid, FragmentOutcome.NotSubmitted),
       (b.fid, FragmentOutcome.Admitted)]
    ∧ log_lookup (submit_batch cfg MempoolState.empty [a, x, b] false).2.statusLog a.fid =
        some FragmentStatus.Pending
    ∧ log_lookup (submit_batch cfg MempoolState.empty [a, x, b] false).2.statusLog b.fid =
        some FragmentStatus.Pending
    ∧ log_lookup (submit_batch cfg MempoolState.empty [a, x, b] false).2.statusLog x.fid =
        none
    ∧ (submit_batch cfg MempoolState.empty [a, x, b] false).2.pool = [a, b] := by
  have hxe : x.bytes = [] := by
    rw [is_well_formed] at hx
    simpa using hx
  have hxa : x.fid ≠ a.fid := by
    show x.bytes ≠ a.bytes
    intro h
    rw [is_well_formed, ← h, hxe] at ha
    simp at ha
  have hxb : x.fid ≠ b.fid := by
    show x.bytes ≠ b.bytes
    intro h
    rw [is_well_formed, ← h, hxe] at hb
    simp at hb
  have hab : ¬ (a.fid = b.fid) := Ne.symm hba
  have h0 : ¬ ((0 : Nat) = cfg.pool_max_entries) := by omega
  have h1 : ¬ ((1 : Nat) = cfg.pool_max_entries) := by omega
  have hlog1 : 1 ≤ cfg.log_max_entries := by omega
  simp [submit_batch, admitOne, log_lookup, evict_oldest, MempoolState.empty, ha, hx, hb,
    h0, h1, hba, hab, hxa, hxb, hlog, hlog1]
  exact ⟨Ne.symm hxa, Ne.symm hxb⟩

/-- C3 witness: the theorem instantiated at one-byte fragments and caps of
ten. -/
theorem fail_fast_false_invalid_in_middle_witness :
    (submit_batch ⟨10, 10, true⟩ MempoolState.empty [⟨[1]⟩, ⟨[]⟩, ⟨[2]⟩] false).1 =
      [([1], FragmentOutcome.Admitted), ([], FragmentOutcome.NotSubmitted),
       ([2], FragmentOutcome.Admitted)]
    ∧ log_lookup
        (submit_batch ⟨10, 10, true⟩ MempoolState.empty [⟨[1]⟩, ⟨[]⟩, ⟨[2]⟩] false).2.statusLog
        (Fragment.fid ⟨[1]⟩) = some FragmentStatus.Pending
    ∧ log_lookup
        (submit_batch ⟨10, 10, true⟩ MempoolState.empty [⟨[1]⟩, ⟨[]⟩, ⟨[2]⟩] false).2.statusLog
        (Fragment.fid ⟨[2]⟩) = some FragmentStatus.Pending
    ∧ log_lookup
        (submit_batch ⟨10, 10, true⟩ MempoolState.empty [⟨[1]⟩, ⟨[]⟩, ⟨[2]⟩] false).2.statusLog
        (Fragment.fid ⟨[]⟩) = none
    ∧ (submit_batch ⟨10, 10, true⟩ MempoolState.empty [⟨[1]⟩, ⟨[]⟩, ⟨[2]⟩] false).2.pool =
        [⟨[1]⟩, ⟨[2]⟩] :=
  fail_fast_false_invalid_in_middle ⟨10, 10, true⟩ ⟨[1]⟩ ⟨[]⟩ ⟨[2]⟩
    (by decide) (by decide) (by decide) (by decide) (by decide) (by decide)

/-- C4 counterexample: with pool_max_entries one, after admitting the
fragment [1] the count of Pending fragments equals pool_max_entries, yet
resubmitting that same fragment returns Duplicate, not PoolFull — the
duplicate check precedes the capacity check, so not every fragment
submitted at full capacity gets PoolFull. -/
theorem pool_full_claim_counterexample :
    (admitOne ⟨1, 10, true⟩ MempoolState.empty ⟨[1]⟩).2.pool.length =
      (⟨1, 10, true⟩ : MempoolConfig).pool_max_entries
    ∧ (admitOne ⟨1, 10, true⟩ (admitOne ⟨1, 10, true⟩ MempoolState.empty ⟨[1]⟩).2
        ⟨[1]⟩).1 = AdmitOutcome.Duplicate
    ∧ (admitOne ⟨1, 10, true⟩ (admitOne ⟨1, 10, true⟩ MempoolState.empty ⟨[1]⟩).2
        ⟨[1]⟩).1 ≠ AdmitOutcome.PoolFull := by
  decide

/-- C4 amended: for every fragment whose FragmentId is not already tracked
in the status log, submitted while the count of currently Pending
fragments equals pool_max_entries, admitOne returns PoolFull and leaves
the state unchanged: nothing is inserted into the pool or status log and
no bytes reach the persistent log. -/
theorem pool_full_rejects_fresh_fragment (cfg : MempoolConfig) (st : MempoolState)
    (f : Fragment) (hfresh : log_lookup st.statusLog f.fid = none)
    (hfull : st.pool.length = cfg.pool_max_entries) :
    admitOne cfg st f = (AdmitOutcome.PoolFull, st) := by
  simp [admitOne, hfresh, hfull]

/-- C4 witness: a pool capacity of zero is already full with the empty
state, and a fresh fragment is rejected as PoolFull with no state
change. -/
theorem pool_full_rejects_fresh_fragment_witness :
    admitOne ⟨0, 5, true⟩ MempoolState.empty ⟨[1]⟩ =
      (AdmitOutcome.PoolFull, MempoolState.empty) :=
  pool_full_rejects_fresh_fragment ⟨0, 5, true⟩ MempoolState.empty ⟨[1]⟩
    (by decide) (by decide)

/-- C5: a fail_fast batch whose first fragment is structurally valid but
only later semantically invalid succeeds as a whole — post_fragments
returns the summary as success with every fragment Admitted — and the
later reconciler calls mark the first fragment Rejected while the others
reach InABlock, without retroactively changing the submission result. -/
theorem late_semantic_rejection_after_successful_batch (cfg : MempoolConfig)
    (d a b : Fragment) (reason : String) (blk : Bytes) (vu : Nat)
    (hd : is_well_formed d = true) (ha : is_well_formed a = true)
    (hb : is_well_formed b = true)
    (had : a.fid ≠ d.fid) (hbd : b.fid ≠ d.fid) (hab : b.fid ≠ a.fid)
    (hpool : 3 ≤ cfg.pool_max_entries) (hlog : 3 ≤ cfg.log_max_entries) :
    (post_fragments cfg MempoolState.empty [d, a, b] true).1 =
      PostFragmentsResult.ok
        ⟨[(d.fid, FragmentOutcome.Admitted), (a.fid, FragmentOutcome.Admitted),
          (b.fid, FragmentOutcome.Admitted)]⟩
    ∧ log_lookup
        (mark_in_block
          (mark_in_block
            (mark_rejected (post_fragments cfg MempoolState.empty [d, a, b] true).2
              d.fid reason)
            a.fid blk vu)
          b.fid blk vu).statusLog d.fid = some (FragmentStatus.Rejected reason)
    ∧ log_lookup
        (mark_in_block
          (mark_in_block
            (mark_rejected (post_fragments cfg MempoolState.empty [d, a, b] true).2
              d.fid reason)
            a.fid blk vu)
          b.fid blk vu).statusLog a.fid = some (FragmentStatus.InABlock blk vu)
    ∧ log_lookup
        (mark_in_block
          (mark_in_block
            (mark_rejected (post_fragments cfg MempoolState.empty [d, a, b] true).2
              d.fid reason)
            a.fid blk vu)
          b.fid blk vu).statusLog b.fid = some (FragmentStatus.InABlock blk vu) := by
  have hda : ¬ (d.fid = a.fid) := Ne.symm had
  have hdb : ¬ (d.fid = b.fid) := Ne.symm hbd
  have hab2 : ¬ (a.fid = b.fid) := Ne.symm hab
  have h0 : ¬ ((0 : Nat) = cfg.pool_max_entries) := by omega
  have h1 : ¬ ((1 : Nat) = cfg.pool_max_entries) := by omega
  have h2 : ¬ ((2 : Nat) = cfg.pool_max_entries) := by omega
  have hl1 : 1 ≤ cfg.log_max_entries := by omega
  have hl2 : 2 ≤ cfg.log_max_entries := by omega
  have hl3 : 3 ≤ cfg.log_max_entries := by omega
  simp [post_fragments, submit_batch, admitOne, mark_in_block, mark_rejected, transition,
    FragmentStatus.isTerminal, FragmentsProcessingSummary.is_error,
    log_lookup, evict_oldest, MempoolState.empty, hd, ha, hb,
    h0, h1, h2, hl1, hl2, hl3, had, hbd, hab, hda, hdb, hab2]

/-- C5 witness: the theorem instantiated at the one-byte fragments [3],
[1], [2], reason "conflicting spend", block [9] and validity bound 7. -/
theorem late_semantic_rejection_after_successful_batch_witness :
    (post_fragments ⟨10, 10, true⟩ MempoolState.empty [⟨[3]⟩, ⟨[1]⟩, ⟨[2]⟩] true).1 =
      PostFragmentsResult.ok
        ⟨[([3], FragmentOutcome.Admitted), ([1], FragmentOutcome.Admitted),
          ([2], FragmentOutcome.Admitted)]⟩
    ∧ log_lookup
        (mark_in_block
          (mark_in_block
            (mark_rejected
              (post_fragments ⟨10, 10, true⟩ MempoolState.empty [⟨[3]⟩, ⟨[1]⟩, ⟨[2]⟩] true).2
              (Fragment.fid ⟨[3]⟩) "conflicting spend")
            (Fragment.fid ⟨[1]⟩) [9] 7)
          (Fragment.fid ⟨[2]⟩) [9] 7).statusLog (Fragment.fid ⟨[3]⟩) =
        some (FragmentStatus.Rejected "conflicting spend")
    ∧ log_lookup
        (mark_in_block
          (mark_in_block
            (mark_rejected
              (post_fragments ⟨10, 10, true⟩ MempoolState.empty [⟨[3]⟩, ⟨[1]⟩, ⟨[2]⟩] true).2
              (Fragment.fid ⟨[3]⟩) "conflicting spend")
            (Fragment.fid ⟨[1]⟩) [9] 7)
          (Fragment.fid ⟨[2]⟩) [9] 7).statusLog (Fragment.fid ⟨[1]⟩) =
        some (FragmentStatus.InABlock [9] 7)
    ∧ log_lookup
        (mark_in_block
          (mark_in_block
            (mark_rejected
              (post_fragments ⟨10, 10, true⟩ MempoolState.empty [⟨[3]⟩, ⟨[1]⟩, ⟨[2]⟩] true).2
              (Fragment.fid ⟨[3]⟩) "conflicting spend")
            (Fragment.fid ⟨[1]⟩) [9] 7)
          (Fragment.fid ⟨[2]⟩) [9] 7).statusLog (Fragment.fid ⟨[2]⟩) =
        some (FragmentStatus.InABlock [9] 7) :=
  late_semantic_rejection_after_successful_batch ⟨10, 10, true⟩ ⟨[3]⟩ ⟨[1]⟩ ⟨[2]⟩
    "conflicting spend" [9] 7 (by decide) (by decide) (by decide) (by decide)
    (by decide) (by decide) (by decide) (by decide)

/-- C6: status transitions are monotonic.  Once a tracked id's status is
terminal (Rejected or InABlock), every further transition call for it is a
no-op, so status never reverts to Pending or changes to another terminal
value; and each tracked id has exactly one current status, an invariant
preserved by both admission and transition. -/
theorem status_transitions_monotonic (cfg : MempoolConfig) (st : MempoolState)
    (fid : FragmentId) (ns : FragmentStatus) (f : Fragment) :
    (∀ s, log_lookup st.statusLog fid = some s → s.isTerminal = true →
        transition st fid ns = st)
    ∧ (unique_statuses st → unique_statuses (admitOne cfg st f).2)
    ∧ (unique_statuses st → unique_statuses (transition st fid ns)) := by
  refine ⟨?_, ?_, ?_⟩
  · intro s hs hterm
    unfold transition
    rw [hs]
    simp [hterm]
  · intro h
    unfold admitOne
    by_cases hdup : (log_lookup st.statusLog f.fid).isSome
    · simp [hdup]; exact h
    · have hnone : log_lookup st.statusLog f.fid = none :=
        Option.not_isSome_iff_eq_none.1 hdup
      have hfresh : ∀ e ∈ st.statusLog, e.1 ≠ f.fid :=
        (log_lookup_eq_none _ _).1 hnone
      by_cases hfull : st.pool.length = cfg.pool_max_entries
      · simp [hdup, hfull]; exact h
      · simp [hdup, hfull]
        unfold unique_statuses at h ⊢
        simp only [evict_oldest]
        have hnodup :
            ((st.statusLog ++ [(f.fid, FragmentStatus.Pending)]).map Prod.fst).Nodup := by
          rw [List.map_append, List.nodup_append]
          refine ⟨h, List.nodup_singleton _, ?_⟩
          intro y hy1 hy2
          simp only [List.map_cons, List.map_nil, List.mem_singleton] at hy2
          simp only [List.mem_map] at hy1
          obtain ⟨e, he, rfl⟩ := hy1
          exact hfresh e he hy2
        split
        · exact hnodup
        · rw [List.map_drop]
          exact List.Nodup.sublist (List.drop_sublist _ _) hnodup
  · intro h
    unfold transition
    cases hl : log_lookup st.statusLog fid with
    | none => exact h
    | some old =>
      by_cases hterm : old.isTerminal
      · simp [hterm]; exact h
      · simp [hterm]
        have hk : List.map Prod.fst
            (List.map (fun e => if e.1 = fid then (e.1, ns) else e) st.statusLog) =
            List.map Prod.fst st.statusLog := by
          rw [List.map_map]
          apply List.map_congr_left
          intro e _
          by_cases hh : e.1 = fid <;> simp [hh]
        unfold unique_statuses at h ⊢
        simpa [hk] using h

/-- C6 witness: on a state tracking id [1] as Rejected, a transition back
to Pending is a no-op, and uniqueness of statuses holds after admission of
a fresh fragment and after the transition call. -/
theorem status_transitions_monotonic_witness :
    transition ⟨[], [([1], FragmentStatus.Rejected "bad")], []⟩ [1]
        FragmentStatus.Pending =
      ⟨[], [([1], FragmentStatus.Rejected "bad")], []⟩
    ∧ unique_statuses
        (admitOne ⟨5, 5, true⟩ ⟨[], [([1], FragmentStatus.Rejected "bad")], []⟩ ⟨[2]⟩).2
    ∧ unique_statuses
        (transition ⟨[], [([1], FragmentStatus.Rejected "bad")], []⟩ [1]
          FragmentStatus.Pending) := by
  have T := status_transitions_monotonic ⟨5, 5, true⟩
    ⟨[], [([1], FragmentStatus.Rejected "bad")], []⟩ [1] FragmentStatus.Pending ⟨[2]⟩
  have hu : unique_statuses ⟨[], [([1], FragmentStatus.Rejected "bad")], []⟩ := by
    simp [unique_statuses]
  exact ⟨T.1 (FragmentStatus.Rejected "bad") (by decide) (by decide),
    T.2.1 hu, T.2.2 hu⟩

/-- C7: node startup aborts with a fatal error exactly when persistent
logging is configured and the log directory cannot be created or opened;
with no persistent log configured, or with the directory opened, startup
succeeds — the failed directory open is the only fatal condition. -/
theorem startup_fatal_iff_log_dir_open_fails (cfg : NodeMempoolConfig) (d : DirOpen) :
    ((∃ m, node_startup cfg d = StartupResult.fatalError m) ↔
      (cfg.persistent_log_dir.isSome = true ∧ ∃ e, d = DirOpen.openFailed e))
    ∧ (∀ e, cfg.persistent_log_dir.isSome = true →
        node_startup cfg (DirOpen.openFailed e) =
          StartupResult.fatalError ("failed to open persistent log file: " ++ e)) := by
  rcases cfg with ⟨p, l, dir⟩
  cases dir <;> cases d <;> simp [node_startup]

/-- C7 witness: with a configured directory that fails to open, startup is
the descriptive fatal error; the iff applied at that concrete input. -/
theorem startup_fatal_iff_log_dir_open_fails_witness :
    node_startup ⟨10, 10, some "sub"⟩ (DirOpen.openFailed "permission denied") =
      StartupResult.fatalError
        ("failed to open persistent log file: " ++ "permission denied") :=
  (startup_fatal_iff_log_dir_open_fails ⟨10, 10, some "sub"⟩
      (DirOpen.openFailed "permission denied")).2 "permission denied" (by decide)

/-- C8: the persistent log retains a record for every fragment ever
appended, independent of the bounded status log.  Admission only appends
to the persistent log, transitions never touch it, and replay after a
restart returns the full historical record.  Concretely, with
log_max_entries one, ten distinct single submissions leave one status-log
entry but all ten byte records; after a restart, ten more leave all
twenty. -/
theorem persistent_log_retains_all_appended (cfg : MempoolConfig)
    (st : MempoolState) (f : Fragment) (fid : FragmentId) (ns : FragmentStatus) :
    (∃ suffix, (admitOne cfg st f).2.persistentLog = st.persistentLog ++ suffix)
    ∧ (transition st fid ns).persistentLog = st.persistentLog
    ∧ replay (restart st) = replay st
    ∧ (admit_seq ⟨1000, 1, true⟩ MempoolState.empty
        ((List.range 10).map (fun i => ⟨[i + 1]⟩))).statusLog.length = 1
    ∧ (admit_seq ⟨1000, 1, true⟩ MempoolState.empty
        ((List.range 10).map (fun i => ⟨[i + 1]⟩))).persistentLog =
        (List.range 10).map (fun i => [i + 1])
    ∧ replay (admit_seq ⟨1000, 1, true⟩
        (restart (admit_seq ⟨1000, 1, true⟩ MempoolState.empty
          ((List.range 10).map (fun i => ⟨[i + 1]⟩))))
        ((List.range 10).map (fun i => ⟨[i + 11]⟩))) =
        (List.range 20).map (fun i => [i + 1]) := by
  refine ⟨?_, ?_, rfl, by decide, by decide, by decide⟩
  · unfold admitOne
    by_cases hdup : (log_lookup st.statusLog f.fid).isSome
    · exact ⟨[], by simp [hdup]⟩
    · by_cases hfull : st.pool.length = cfg.pool_max_entries
      · exact ⟨[], by simp [hdup, hfull]⟩
      · by_cases hen : cfg.persistent_log_enabled
        · exact ⟨[f.bytes], by simp [hdup, hfull, hen]⟩
        · exact ⟨[], by simp [hdup, hfull, hen]⟩
  · unfold transition
    cases hl : log_lookup st.statusLog fid with
    | none => rfl
    | some old =>
      by_cases hterm : old.isTerminal <;> simp [hterm]

/-- C9: every NodeStats returned by get_stats derives all of its
last_block_* fields from the single tip block summary: either no tip block
has been observed and every last_block_* field is its default, or one
stored summary supplies every field; and set_tip_block stores the complete
summary computed from one block as a single unit. -/
theorem get_stats_last_block_fields_from_one_summary (s : SimpleCounter)
    (b : Block) (t : Nat) :
    ((s.tip_block = none
        ∧ (get_stats s).last_block_content_size = 0
        ∧ (get_stats s).last_block_date = none
        ∧ (get_stats s).last_block_fees = 0
        ∧ (get_stats s).last_block_hash = none
        ∧ (get_stats s).last_block_height = none
        ∧ (get_stats s).last_block_sum = 0
        ∧ (get_stats s).last_block_time = none
        ∧ (get_stats s).last_block_tx = 0)
      ∨ (∃ bd, s.tip_block = some bd
        ∧ (get_stats s).last_block_content_size = bd.content_size
        ∧ (get_stats s).last_block_date = some bd.date
        ∧ (get_stats s).last_block_fees = bd.block_fee_sum
        ∧ (get_stats s).last_block_hash = some bd.hash
        ∧ (get_stats s).last_block_height = some bd.chain_length
        ∧ (get_stats s).last_block_sum = bd.block_input_sum
        ∧ (get_stats s).last_block_time = some bd.time
        ∧ (get_stats s).last_block_tx = bd.block_tx_count))
    ∧ (set_tip_block s b t).tip_block = some (tip_block_counters b t) := by
  constructor
  · cases h : s.tip_block with
    | none => exact Or.inl ⟨rfl, by simp [get_stats, h]⟩
    | some bd => exact Or.inr ⟨bd, rfl, by simp [get_stats, h]⟩
  · rfl

/-- Parsing a list of id strings fails exactly when some string in the
list fails to parse as a FragmentId. -/
lemma parse_ids_eq_none (ids : List String) :
    parse_ids ids = none ↔ ∃ s ∈ ids, fragment_id_from_str s = none := by
  induction ids with
  | nil => simp [parse_ids]
  | cons s rest ih =>
    cases h : fragment_id_from_str s with
    | none => simp [parse_ids, h]
    | some fid =>
      cases hr : parse_ids rest with
      | none =>
        simp only [parse_ids, h, hr]
        simp only [hr, true_iff] at ih
        obtain ⟨y, hy, hc⟩ := ih
        simp
        exact Or.inr ⟨y, hy, hc⟩
      | some fids =>
        have hL : parse_ids (s :: rest) = some (fid :: fids) := by
          simp [parse_ids, h, hr]
        rw [hL]
        constructor
        · intro hc; cases hc
        · rintro ⟨y, hy, hc⟩
          rcases List.mem_cons.1 hy with rfl | hy2
          · rw [h] at hc; cases hc
          · have hn := ih.2 ⟨y, hy2, hc⟩
            rw [hr] at hn; cases hn

/-- C10: if any id string in the list fails to parse as a FragmentId,
get_fragment_statuses errors the whole request, and the result does not
depend on the store — no statuses are returned for any id, so an invalid
id is not reported as merely absent from the result mapping. -/
theorem invalid_id_fails_whole_status_query
    (store store2 : List (FragmentId × FragmentStatus))
    (ids : List String) (s : String) (hs : s ∈ ids)
    (hbad : fragment_id_from_str s = none) :
    get_fragment_statuses store ids = Except.error "invalid fragment id"
    ∧ get_fragment_statuses store ids = get_fragment_statuses store2 ids := by
  have hp : parse_ids ids = none := (parse_ids_eq_none ids).2 ⟨s, hs, hbad⟩
  simp [get_fragment_statuses, hp]

/-- C10 witness: the request ["zz"] errors against a store tracking the
zero hash, and equals the result against the empty store. -/
theorem invalid_id_fails_whole_status_query_witness :
    get_fragment_statuses [(List.replicate 32 0, FragmentStatus.Pending)] ["zz"] =
      Except.error "invalid fragment id"
    ∧ get_fragment_statuses [(List.replicate 32 0, FragmentStatus.Pending)] ["zz"] =
        get_fragment_statuses [] ["zz"] :=
  invalid_id_fails_whole_status_query [(List.replicate 32 0, FragmentStatus.Pending)]
    [] ["zz"] "zz" (by decide) (by decide)
